import Mathlib

/-!
Verification of the notes tool (src/notes.py): a note store with three
operations (create_note, list_notes, get_note) over a single table, and a
dispatch entry point `notes` that routes a lower-cased action string to them.
-/

namespace NotesTool

/-- A stored note record: the row shape of the notes table, with columns
id, title and body. -/
structure Note where
  id : Nat
  title : String
  body : String
deriving DecidableEq, Repr

/-- Modelled from the spec: the backing SQLite table lives in `app.db`, which
is not part of the sources; per the spec, identifiers are unique, assigned
monotonically by the storage layer starting at 1, and rows are never updated
or deleted. A store is the table rows in insertion order together with the
next identifier to assign. -/
structure Store where
  rows : List Note
  nextId : Nat
deriving DecidableEq, Repr

/-- The empty table, before any create call; the first assigned id is 1. -/
def Store.empty : Store := ⟨[], 1⟩

/-- Embedding of `create_note` (src/notes.py lines 12-33):
INSERT INTO notes (title, body) VALUES (?, ?), returning `cur.lastrowid`.
The storage layer appends a fresh row with the next identifier. -/
def create_note (s : Store) (title body : String) : Store × Nat :=
  (⟨s.rows ++ [⟨s.nextId, title, body⟩], s.nextId + 1⟩, s.nextId)

/-- The comparison used by ORDER BY id DESC. -/
def descById (a b : Note) : Bool := decide (b.id ≤ a.id)

/-- Embedding of `list_notes` (src/notes.py lines 36-53):
SELECT * FROM notes ORDER BY id DESC, each row returned as a dict. -/
def list_notes (s : Store) : List Note :=
  s.rows.mergeSort descById

/-- Embedding of `get_note` (src/notes.py lines 56-75):
SELECT * FROM notes WHERE id = ? ... fetchone(), returning the dict of the
row when one matches and None otherwise. -/
def get_note (s : Store) (nid : Nat) : Option Note :=
  s.rows.find? (fun n => n.id == nid)

/-- The shapes of the values the dispatch entry point returns:
the dict with the single key "id", the dict with the single key "notes",
a bare note record, and the dict with the single key "error". -/
inductive ToolResult where
  | idResult (id : Nat)
  | notesResult (l : List Note)
  | noteResult (n : Note)
  | errorRes (msg : String)
deriving DecidableEq, Repr

/-- Embedding of Python's `str.lower()`: lower-case every character of the
string (for the ASCII action names at stake this is exact). -/
def lowerStr (s : String) : String := String.mk (s.data.map Char.toLower)

/-- Embedding of the tool entry point `notes` (src/notes.py lines 82-118):
lower-cases the action, routes to create/list/get, and raises
ValueError "Unknown action" otherwise. The optional parameters default to
"" , "" and 0 as in the Python signature; a raise is an `Except.error`. -/
def notes (s : Store) (action : String) (title : String := "")
    (body : String := "") (id : Nat := 0) :
    Except String (Store × ToolResult) :=
  let a := lowerStr action
  if a = "create" then
    let r := create_note s title body
    Except.ok (r.1, ToolResult.idResult r.2)
  else if a = "list" then
    Except.ok (s, ToolResult.notesResult (list_notes s))
  else if a = "get" then
    match get_note s id with
    | some n => Except.ok (s, ToolResult.noteResult n)
    | none => Except.ok (s, ToolResult.errorRes "not found")
  else
    Except.error "Unknown action"

/-- One store-level operation: a create with its inputs, a list, or a get. -/
inductive Action where
  | createAct (title body : String)
  | listAct
  | getAct (id : Nat)
deriving DecidableEq, Repr

/-- Whether an action is a create. -/
def Action.isCreate : Action → Bool
  | .createAct _ _ => true
  | _ => false

/-- Run one operation against the store, producing the structured result the
dispatch wrapper builds for it. -/
def step (s : Store) : Action → Store × ToolResult
  | .createAct t b =>
    let r := create_note s t b
    (r.1, ToolResult.idResult r.2)
  | .listAct => (s, ToolResult.notesResult (list_notes s))
  | .getAct i =>
    match get_note s i with
    | some n => (s, ToolResult.noteResult n)
    | none => (s, ToolResult.errorRes "not found")

/-- Run a sequence of operations, collecting the results in order. -/
def runOps (s : Store) : List Action → Store × List ToolResult
  | [] => (s, [])
  | a :: rest =>
    let p := step s a
    let q := runOps p.1 rest
    (q.1, p.2 :: q.2)

/-- The store reached from the empty table by a sequence of operations. -/
def runStore (tr : List Action) : Store := (runOps Store.empty tr).1

/-- The id the dispatch result of a create carries, if any. -/
def pickId : ToolResult → Option Nat
  | ToolResult.idResult n => some n
  | _ => none

/-- The identifiers returned by the create calls of a run, in order. -/
def createdIds (tr : List Action) : List Nat :=
  (runOps Store.empty tr).2.filterMap pickId

/-- Store well-formedness: the next identifier is at least 1, row identifiers
are strictly increasing in insertion order, and every row identifier is at
least 1 and below the next identifier to assign. -/
def Store.WF (s : Store) : Prop :=
  1 ≤ s.nextId ∧
    s.rows.Pairwise (fun a b => a.id < b.id) ∧
    ∀ n ∈ s.rows, 1 ≤ n.id ∧ n.id < s.nextId

theorem wf_empty : Store.empty.WF := by
  refine ⟨Nat.le_refl 1, List.Pairwise.nil, ?_⟩
  intro n hn
  simp [Store.empty] at hn

theorem wf_create {s : Store} (h : s.WF) (t b : String) :
    (create_note s t b).1.WF := by
  obtain ⟨h1, hp, hb⟩ := h
  refine ⟨Nat.le_succ_of_le h1, ?_, ?_⟩
  · rw [create_note, List.pairwise_append]
    refine ⟨hp, List.pairwise_singleton _ _, ?_⟩
    intro x hx y hy
    rw [List.mem_singleton] at hy
    subst hy
    exact (hb x hx).2
  · intro n hn
    rw [create_note, List.mem_append, List.mem_singleton] at hn
    rcases hn with hn | hn
    · obtain ⟨hlo, hhi⟩ := hb n hn
      exact ⟨hlo, Nat.lt_succ_of_lt hhi⟩
    · subst hn
      exact ⟨h1, Nat.lt_succ_self _⟩

theorem wf_step {s : Store} (h : s.WF) (a : Action) : (step s a).1.WF := by
  cases a with
  | createAct t b => exact wf_create h t b
  | listAct => exact h
  | getAct i =>
    cases hg : get_note s i <;> simp [step, hg] <;> exact h

theorem wf_runOps : ∀ (tr : List Action) (s : Store), s.WF → (runOps s tr).1.WF
  | [], _, h => h
  | a :: rest, s, h => wf_runOps rest (step s a).1 (wf_step h a)

theorem wf_runStore (tr : List Action) : (runStore tr).WF :=
  wf_runOps tr Store.empty wf_empty

/-- The rows after one operation extend the rows before it: list and get keep
the rows, create appends one row. -/
theorem step_rows (s : Store) (a : Action) :
    ∃ tail, (step s a).1.rows = s.rows ++ tail := by
  cases a with
  | createAct t b => exact ⟨[⟨s.nextId, t, b⟩], rfl⟩
  | listAct => exact ⟨[], (List.append_nil _).symm⟩
  | getAct i =>
    refine ⟨[], ?_⟩
    cases hg : get_note s i <;> simp [step, hg]

theorem runOps_rows_length :
    ∀ (tr : List Action) (s : Store),
      (runOps s tr).1.rows.length = s.rows.length + tr.countP Action.isCreate
  | [], s => by simp [runOps]
  | a :: rest, s => by
    rw [runOps]
    cases a with
    | createAct t b =>
      rw [runOps_rows_length rest]
      simp [step, create_note, List.countP_cons, Action.isCreate]
      omega
    | listAct =>
      rw [runOps_rows_length rest]
      simp [step, List.countP_cons, Action.isCreate]
    | getAct i =>
      rw [runOps_rows_length rest]
      cases hg : get_note s i <;>
        simp [step, hg, List.countP_cons, Action.isCreate]

theorem step_snd_pickId (s : Store) (a : Action) :
    (step s a).1.rows.map Note.id =
      s.rows.map Note.id ++ (pickId (step s a).2).toList := by
  cases a with
  | createAct t b => simp [step, create_note, pickId]
  | listAct => simp [step, pickId]
  | getAct i =>
    cases hg : get_note s i <;> simp [step, hg, pickId]

theorem runOps_ids :
    ∀ (tr : List Action) (s : Store),
      (runOps s tr).1.rows.map Note.id =
        s.rows.map Note.id ++ (runOps s tr).2.filterMap pickId
  | [], s => by simp [runOps]
  | a :: rest, s => by
    rw [runOps]
    simp only [List.filterMap_cons]
    cases hp : pickId (step s a).2 with
    | none =>
      have h := runOps_ids rest (step s a).1
      have h2 := step_snd_pickId s a
      rw [hp] at h2
      simp at h2
      rw [h, h2]
    | some n =>
      have h := runOps_ids rest (step s a).1
      have h2 := step_snd_pickId s a
      rw [hp] at h2
      simp at h2
      rw [h, h2]
      simp

theorem createdIds_eq (tr : List Action) :
    createdIds tr = (runStore tr).rows.map Note.id := by
  rw [createdIds, runStore, runOps_ids tr Store.empty]
  simp [Store.empty]

theorem notes_create_eq (s : Store) (t b : String) (i : Nat) :
    notes s "create" t b i =
      Except.ok ((create_note s t b).1, ToolResult.idResult (create_note s t b).2) := rfl

theorem notes_list_eq (s : Store) (t b : String) (i : Nat) :
    notes s "list" t b i = Except.ok (s, ToolResult.notesResult (list_notes s)) := rfl

theorem notes_get_eq (s : Store) (t b : String) (i : Nat) :
    notes s "get" t b i =
      match get_note s i with
      | some n => Except.ok (s, ToolResult.noteResult n)
      | none => Except.ok (s, ToolResult.errorRes "not found") := rfl

theorem descById_trans (a b c : Note) (h1 : descById a b) (h2 : descById b c) :
    descById a c := by
  simp only [descById, decide_eq_true_eq] at h1 h2 ⊢
  omega

theorem descById_total (a b : Note) : descById a b || descById b a := by
  simp only [descById]
  rcases Nat.le_total b.id a.id with h | h <;> simp [h]

/-- C1: for every title t and body b, calling get on the identifier returned
by create(t, b) — in any store reachable from the empty table — returns a
note whose title equals t and whose body equals b (and whose id is that
identifier). -/
theorem get_after_create (tr : List Action) (t b : String) :
    get_note (create_note (runStore tr) t b).1 (create_note (runStore tr) t b).2 =
      some ⟨(create_note (runStore tr) t b).2, t, b⟩ := by
  obtain ⟨h1, hp, hb⟩ := wf_runStore tr
  have hnone :
      (runStore tr).rows.find? (fun n => n.id == (runStore tr).nextId) = none := by
    rw [List.find?_eq_none]
    intro x hx hbeq
    have hx2 := (hb x hx).2
    rw [beq_iff_eq] at hbeq
    omega
  simp only [create_note, get_note]
  rw [List.find?_append, hnone]
  simp

/-- C2: in every store reachable from the empty table, list() returns the
stored notes in strictly descending identifier order, and the length of the
returned sequence equals the number of create calls performed so far. -/
theorem list_sorted_and_counted (tr : List Action) :
    (list_notes (runStore tr)).Pairwise (fun a b => b.id < a.id) ∧
      (list_notes (runStore tr)).length = tr.countP Action.isCreate := by
  obtain ⟨h1, hp, hb⟩ := wf_runStore tr
  constructor
  · have hsorted : (list_notes (runStore tr)).Pairwise fun a b => descById a b :=
      List.sorted_mergeSort descById_trans descById_total (runStore tr).rows
    have hperm : List.Perm (list_notes (runStore tr)) (runStore tr).rows :=
      List.mergeSort_perm (runStore tr).rows descById
    have hne_rows : (runStore tr).rows.Pairwise fun a b => a.id ≠ b.id :=
      hp.imp fun h => Nat.ne_of_lt h
    have hne : (list_notes (runStore tr)).Pairwise fun a b => a.id ≠ b.id :=
      (hperm.pairwise_iff fun h => Ne.symm h).mpr hne_rows
    refine (hsorted.and hne).imp ?_
    intro a b h
    obtain ⟨hle, hne2⟩ := h
    simp only [descById, decide_eq_true_eq] at hle
    omega
  · rw [list_notes, List.length_mergeSort]
    have h := runOps_rows_length tr Store.empty
    simpa [runStore, Store.empty] using h

/-- C3: for every action string whose lower-casing is none of "create",
"list" and "get", dispatch raises the usage error ValueError "Unknown
action"; no new store is produced, so the stored notes are unchanged. -/
theorem unknown_action_error (s : Store) (action t b : String) (i : Nat)
    (h1 : lowerStr action ≠ "create") (h2 : lowerStr action ≠ "list")
    (h3 : lowerStr action ≠ "get") :
    notes s action t b i = Except.error "Unknown action" := by
  simp only [notes]
  rw [if_neg h1, if_neg h2, if_neg h3]

theorem unknown_action_error_witness :
    (lowerStr "delete" ≠ "create" ∧ lowerStr "delete" ≠ "list" ∧
        lowerStr "delete" ≠ "get") ∧
      notes Store.empty "delete" "a" "b" 3 = Except.error "Unknown action" :=
  ⟨by decide,
    unknown_action_error Store.empty "delete" "a" "b" 3
      (by decide) (by decide) (by decide)⟩

/-- C4: for every identifier never returned by a create call of the run,
get returns the not-found results (None from get_note, the structured
not-found dict from dispatch) and no exception. -/
theorem get_missing_id (tr : List Action) (i : Nat) (h : i ∉ createdIds tr) :
    get_note (runStore tr) i = none ∧
      notes (runStore tr) "get" "" "" i =
        Except.ok (runStore tr, ToolResult.errorRes "not found") := by
  have hid : i ∉ (runStore tr).rows.map Note.id := by
    rw [← createdIds_eq]
    exact h
  have hn : get_note (runStore tr) i = none := by
    rw [get_note, List.find?_eq_none]
    intro x hx hbeq
    rw [beq_iff_eq] at hbeq
    exact hid (List.mem_map.mpr ⟨x, hx, hbeq⟩)
  refine ⟨hn, ?_⟩
  rw [notes_get_eq, hn]

theorem get_missing_id_witness :
    (5 ∉ createdIds [Action.createAct "a" "b"]) ∧
      (get_note (runStore [Action.createAct "a" "b"]) 5 = none ∧
        notes (runStore [Action.createAct "a" "b"]) "get" "" "" 5 =
          Except.ok (runStore [Action.createAct "a" "b"],
            ToolResult.errorRes "not found")) :=
  ⟨by decide, get_missing_id [Action.createAct "a" "b"] 5 (by decide)⟩

/-- C5: the shape of the dispatch result matches the action: "create" yields
the dict with the single key "id" holding the new identifier, "list" yields
the dict with the single key "notes" holding the note sequence, "get" on a
present id yields the bare note record, and "get" on a missing id yields
exactly the dict mapping "error" to "not found". -/
theorem dispatch_result_shapes (s : Store) (t b : String) (i : Nat) :
    notes s "create" t b i =
        Except.ok ((create_note s t b).1, ToolResult.idResult (create_note s t b).2) ∧
      notes s "list" t b i = Except.ok (s, ToolResult.notesResult (list_notes s)) ∧
      (∀ n, get_note s i = some n →
        notes s "get" t b i = Except.ok (s, ToolResult.noteResult n)) ∧
      (get_note s i = none →
        notes s "get" t b i = Except.ok (s, ToolResult.errorRes "not found")) := by
  refine ⟨notes_create_eq s t b i, notes_list_eq s t b i, ?_, ?_⟩
  · intro n hn
    rw [notes_get_eq, hn]
  · intro hn
    rw [notes_get_eq, hn]

theorem dispatch_result_shapes_witness :
    (get_note (Store.mk [Note.mk 1 "a" "b"] 2) 1 = some (Note.mk 1 "a" "b") ∧
        notes (Store.mk [Note.mk 1 "a" "b"] 2) "get" "" "" 1 =
          Except.ok (Store.mk [Note.mk 1 "a" "b"] 2,
            ToolResult.noteResult (Note.mk 1 "a" "b"))) ∧
      (get_note (Store.mk [Note.mk 1 "a" "b"] 2) 7 = none ∧
        notes (Store.mk [Note.mk 1 "a" "b"] 2) "get" "" "" 7 =
          Except.ok (Store.mk [Note.mk 1 "a" "b"] 2,
            ToolResult.errorRes "not found")) :=
  ⟨⟨by decide,
      (dispatch_result_shapes (Store.mk [Note.mk 1 "a" "b"] 2) "" "" 1).2.2.1
        (Note.mk 1 "a" "b") (by decide)⟩,
    ⟨by decide,
      (dispatch_result_shapes (Store.mk [Note.mk 1 "a" "b"] 2) "" "" 7).2.2.2
        (by decide)⟩⟩

/-- C6: two dispatch calls whose action strings lower-case to the same string
— in particular "CREATE" and "create" — produce the same result and the same
store-state change. -/
theorem dispatch_case_insensitive (s : Store) (a₁ a₂ t b : String) (i : Nat)
    (h : lowerStr a₁ = lowerStr a₂) :
    notes s a₁ t b i = notes s a₂ t b i := by
  simp only [notes]
  rw [h]

theorem dispatch_case_insensitive_witness :
    lowerStr "CREATE" = lowerStr "create" ∧
      notes Store.empty "CREATE" "x" "y" 0 = notes Store.empty "create" "x" "y" 0 :=
  ⟨by decide,
    dispatch_case_insensitive Store.empty "CREATE" "create" "x" "y" 0 (by decide)⟩

/-- C7: the identifier returned by a create call is distinct from every
identifier returned by a prior create call of the same run, and the stored
identifiers are pairwise distinct. -/
theorem create_id_fresh (tr : List Action) (t b : String) :
    (create_note (runStore tr) t b).2 ∉ createdIds tr ∧
      ((runStore tr).rows.map Note.id).Nodup := by
  obtain ⟨h1, hp, hb⟩ := wf_runStore tr
  constructor
  · rw [createdIds_eq]
    intro hmem
    rw [List.mem_map] at hmem
    obtain ⟨x, hx, hid⟩ := hmem
    have hx2 := (hb x hx).2
    simp only [create_note] at hid
    omega
  · rw [List.Nodup, List.pairwise_map]
    exact hp.imp fun h => Nat.ne_of_lt h

/-- C8: the dispatch result depends only on the parameters relevant to the
action: "list" and "get" ignore title and body, and "create" and "list"
ignore the id argument. -/
theorem dispatch_ignores_irrelevant (s : Store) (t t' b b' : String) (i i' : Nat) :
    (notes s "list" t b i = notes s "list" t' b' i' ∧
        notes s "get" t b i = notes s "get" t' b' i) ∧
      (notes s "create" t b i = notes s "create" t b i' ∧
        notes s "list" t b i = notes s "list" t b i') := by
  refine ⟨⟨?_, ?_⟩, ?_, ?_⟩
  · rw [notes_list_eq, notes_list_eq]
  · rw [notes_get_eq, notes_get_eq]
  · rw [notes_create_eq, notes_create_eq]
  · rw [notes_list_eq, notes_list_eq]

/-- C9: list and get leave the store exactly as it was, and every operation
only ever appends rows — no stored note is modified or removed by any
operation. -/
theorem reads_no_mutation (s : Store) (i : Nat) (a : Action) :
    (step s Action.listAct).1 = s ∧ (step s (Action.getAct i)).1 = s ∧
      ∃ tail, (step s a).1.rows = s.rows ++ tail := by
  refine ⟨rfl, ?_, step_rows s a⟩
  cases hg : get_note s i <;> simp [step, hg]

/-- C10: dispatch of "get" with the id parameter omitted looks up the default
identifier 0, and on every store populated only by creates (identifiers
start at 1) it returns the structured not-found result. -/
theorem default_get_zero_not_found (tr : List Action) :
    notes (runStore tr) "get" = notes (runStore tr) "get" "" "" 0 ∧
      notes (runStore tr) "get" =
        Except.ok (runStore tr, ToolResult.errorRes "not found") := by
  obtain ⟨h1, hp, hb⟩ := wf_runStore tr
  have h0 : get_note (runStore tr) 0 = none := by
    rw [get_note, List.find?_eq_none]
    intro x hx hbeq
    have hx1 := (hb x hx).1
    rw [beq_iff_eq] at hbeq
    omega
  refine ⟨rfl, ?_⟩
  rw [notes_get_eq, h0]

end NotesTool
